import Mathlib

/-!
Verification of the quiz subsystem (Quiz Engine, Session Store, Question
Bank) and of the recruiter web client's task-list fetch of the
cu-x5-bootcamp repository.

The quiz endpoints are translated from the `submit_answer` handler of the
"Quiz Response Handling" document (`src/unnamed/part_004`) and from the
helper implementations (`start_quiz`, `get_next_question`,
`finalize_session`, the `quiz_answers` schema with its
`UNIQUE (session_id, question_id)` constraint) given in the "Quiz System
Architecture" document.  `getTasks` is translated from
`src/services/recruiter_web/src/api/tasks.ts`.

Timestamps are modelled as integer seconds.  Database operations are
transactional: an operation that fails returns an error and leaves the
store untouched, mirroring the single-transaction requirement of the
architecture document.
-/

namespace X5

instance {ε α : Type} [DecidableEq ε] [DecidableEq α] : DecidableEq (Except ε α) :=
  fun x y =>
    match x, y with
    | .error a, .error b => decidable_of_iff (a = b) (by simp)
    | .ok a, .ok b => decidable_of_iff (a = b) (by simp)
    | .error _, .ok _ => isFalse (fun h => Except.noConfusion h)
    | .ok _, .error _ => isFalse (fun h => Except.noConfusion h)

/-! ## JSON values and the recruiter web `getTasks` client -/

/-- A JSON value, as produced by `response.json()` in the browser. -/
inductive Json where
  | null : Json
  | bool (b : Bool) : Json
  | num (n : Int) : Json
  | str (s : String) : Json
  | arr (elems : List Json) : Json
  | obj (fields : List (String × Json)) : Json

/-- JavaScript truthiness of a parsed JSON value (`!data` in the source). -/
def Json.truthy : Json → Bool
  | .null => false
  | .bool b => b
  | .num n => n != 0
  | .str s => s != ""
  | .arr _ => true
  | .obj _ => true

/-- `typeof data === 'object'` for a parsed JSON value: true for objects,
arrays and `null`. -/
def Json.typeofIsObject : Json → Bool
  | .null => true
  | .arr _ => true
  | .obj _ => true
  | _ => false

/-- Whether the value is a JSON object (`{...}`). -/
def Json.isObject : Json → Bool
  | .obj _ => true
  | _ => false

/-- JavaScript property access on a parsed JSON object; with duplicate
keys `JSON.parse` keeps the last binding. -/
def jsonField (fields : List (String × Json)) (key : String) : Option Json :=
  fields.foldl (fun acc kv => if kv.1 = key then some kv.2 else acc) none

/-- The `ApiError` class of `api/tasks.ts`. -/
structure ApiError where
  message : String
  statusCode : Option Nat
  isNetworkError : Bool
deriving DecidableEq

/-- The observable outcome of the `fetch` call: a network failure, or an
HTTP response with its `ok` flag, status code, and body (`none` when the
body does not parse as JSON). -/
inductive FetchOutcome where
  | networkFailure
  | httpResponse (ok : Bool) (status : Nat) (body : Option Json)

/-- `getTasks` from `src/services/recruiter_web/src/api/tasks.ts`,
as a function of the fetch outcome. -/
def getTasks (o : FetchOutcome) : Except ApiError (List Json) :=
  match o with
  | .networkFailure =>
      .error ⟨"Не удалось подключиться к серверу. Проверьте соединение или попробуйте позже.",
        none, true⟩
  | .httpResponse ok status body =>
      if !ok then
        if status = 401 then .error ⟨"Сессия истекла. Пожалуйста, войдите снова.", some 401, false⟩
        else if status = 403 then .error ⟨"Нет доступа к задачам.", some 403, false⟩
        else if status = 404 then
          .error ⟨"API задач недоступен. Возможно, сервер обновляется.", some 404, false⟩
        else if 500 ≤ status then .error ⟨"Ошибка сервера. Попробуйте позже.", some status, false⟩
        else .error ⟨"Ошибка загрузки задач (" ++ toString status ++ ")", some status, false⟩
      else
        match body with
        | none => .error ⟨"Сервер вернул некорректный ответ.", none, false⟩
        | some data =>
          if !data.truthy || !data.typeofIsObject then
            .error ⟨"Сервер вернул пустой ответ.", none, false⟩
          else
            match data with
            | .obj fields =>
                match jsonField fields "tasks" with
                | some (.arr tasks) => .ok tasks
                | _ => .ok []
            | _ => .ok []

/-! ## Quiz data model (tables `quiz_blocks`, `track_quiz_blocks`,
`quiz_questions`, `quiz_sessions`, `quiz_answers`) -/

/-- A quiz question of the question bank (table `quiz_questions`). -/
structure Question where
  qid : Nat
  blockId : Nat
  text : String
  optionA : String
  optionB : String
  optionC : String
  optionD : String
  correct_answer : Char
  is_active : Bool
deriving DecidableEq

/-- A topic block of questions (table `quiz_blocks`). -/
structure QuizBlock where
  bid : Nat
  name : String
  is_active : Bool
deriving DecidableEq

/-- One `(track, block, required question count)` row of
`track_quiz_blocks`; the order of these rows is the track's configured
block order. -/
structure TrackQuizBlock where
  trackId : Nat
  blockId : Nat
  questions_count : Nat
deriving DecidableEq

inductive SessionStatus where
  | in_progress
  | completed
deriving DecidableEq, BEq

instance : LawfulBEq SessionStatus where
  eq_of_beq := by intro a b h; cases a <;> cases b <;> first | rfl | exact Bool.noConfusion h
  rfl := by intro a; cases a <;> rfl

/-- A quiz attempt (table `quiz_sessions`). -/
structure Session where
  sid : Nat
  candidateId : Nat
  trackId : Nat
  status : SessionStatus
  started_at : Int
  expires_at : Int
  ended_at : Option Int
  total_questions : Nat
  correct_answers : Nat
  wrong_answers : Nat
  score : Option Rat
deriving DecidableEq

/-- A recorded answer (table `quiz_answers`). -/
structure AnsweredQuestion where
  sessionId : Nat
  questionId : Nat
  candidate_answer : Char
  is_correct : Bool
deriving DecidableEq

/-- The persistent store. -/
structure DB where
  blocks : List QuizBlock
  trackBlocks : List TrackQuizBlock
  questions : List Question
  sessions : List Session
  answers : List AnsweredQuestion
deriving DecidableEq

/-! ## Store queries -/

/-- `SELECT * FROM quiz_sessions WHERE id = sid`. -/
def get_session (db : DB) (sid : Nat) : Option Session :=
  db.sessions.find? (fun s => s.sid == sid)

/-- `SELECT * FROM quiz_questions WHERE id = qid`. -/
def get_question (db : DB) (qid : Nat) : Option Question :=
  db.questions.find? (fun q => q.qid == qid)

/-- The track's configured `(block, required count)` rows, in configured
order. -/
def get_track_quiz_blocks (db : DB) (trackId : Nat) : List TrackQuizBlock :=
  db.trackBlocks.filter (fun tb => tb.trackId == trackId)

/-- Identifiers of the questions already answered in this session. -/
def get_answered_question_ids (db : DB) (sid : Nat) : List Nat :=
  (db.answers.filter (fun a => a.sessionId == sid)).map (fun a => a.questionId)

/-- Number of answers recorded for this session. -/
def count_answered_questions (db : DB) (sid : Nat) : Nat :=
  (db.answers.filter (fun a => a.sessionId == sid)).length

/-- The block a recorded answer's question belongs to (the join of
`quiz_answers` with `quiz_questions`). -/
def answerBlock (db : DB) (a : AnsweredQuestion) : Option Nat :=
  (get_question db a.questionId).map (fun q => q.blockId)

/-- How many answers of this session reference questions of the given
block. -/
def count_block_questions_in_session (db : DB) (sid blockId : Nat) : Nat :=
  (db.answers.filter (fun a =>
    a.sessionId == sid && answerBlock db a == some blockId)).length

/-- `SELECT * FROM quiz_questions WHERE block_id = blockId AND is_active
AND id NOT IN exclude`. -/
def activePool (db : DB) (blockId : Nat) (exclude : List Nat) : List Question :=
  db.questions.filter (fun q =>
    q.blockId == blockId && q.is_active && !(exclude.contains q.qid))

/-- `ORDER BY RANDOM() LIMIT 1`: one row of the active pool, its position
chosen by the random seed; `none` exactly when the pool is empty. -/
def get_random_question_from_block (db : DB) (blockId : Nat) (exclude : List Nat)
    (seed : Nat) : Option Question :=
  (activePool db blockId exclude).get? (seed % (activePool db blockId exclude).length)

/-- The loop body of `get_next_question` of the architecture document:
walk the configured blocks in order; the first block whose answered count
is below its required count and whose active pool still has an unanswered
question yields the next question. -/
def nextFromBlocks (db : DB) (sid : Nat) (answered : List Nat) (seed : Nat) :
    List TrackQuizBlock → Option Question
  | [] => none
  | tb :: rest =>
    if count_block_questions_in_session db sid tb.blockId < tb.questions_count then
      match get_random_question_from_block db tb.blockId answered seed with
      | some q => some q
      | none => nextFromBlocks db sid answered seed rest
    else nextFromBlocks db sid answered seed rest

/-- `get_next_question` from the architecture document. -/
def get_next_question (db : DB) (s : Session) (seed : Nat) : Option Question :=
  nextFromBlocks db s.sid (get_answered_question_ids db s.sid) seed
    (get_track_quiz_blocks db s.trackId)

/-! ## Store mutations -/

inductive QuizError where
  | sessionNotFound
  | questionNotFound
  | uniqueViolation
deriving DecidableEq

/-- `INSERT INTO quiz_answers ...`; the `UNIQUE (session_id, question_id)`
constraint of the schema rejects a second row for the same pair. -/
def save_answer (db : DB) (sid qid : Nat) (ans : Char) (is_correct : Bool) :
    Except QuizError DB :=
  if db.answers.any (fun a => a.sessionId == sid && a.questionId == qid) then
    .error .uniqueViolation
  else
    .ok { db with answers := db.answers ++ [⟨sid, qid, ans, is_correct⟩] }

/-- `UPDATE quiz_sessions SET ... WHERE id = sid`. -/
def updateSession (db : DB) (sid : Nat) (u : Session → Session) : DB :=
  { db with sessions := db.sessions.map (fun s => if s.sid == sid then u s else s) }

/-- Modelled from the spec: §4.2 Step 4 (increment `total_questions` and
`correct_answers` or `wrong_answers`); the body of the source's
`update_session_stats` is not present in the repository. -/
def update_session_stats (db : DB) (sid : Nat) (is_correct : Bool) : DB :=
  updateSession db sid (fun s =>
    { s with total_questions := s.total_questions + 1,
             correct_answers := s.correct_answers + (if is_correct then 1 else 0),
             wrong_answers := s.wrong_answers + (if is_correct then 0 else 1) })

/-- Answers recorded for this session. -/
def sessionAnswers (db : DB) (sid : Nat) : List AnsweredQuestion :=
  db.answers.filter (fun a => a.sessionId == sid)

/-- Per-session statistics recomputed from the recorded answers. -/
def statsTotal (db : DB) (sid : Nat) : Nat := (sessionAnswers db sid).length

def statsCorrect (db : DB) (sid : Nat) : Nat :=
  ((sessionAnswers db sid).filter (fun a => a.is_correct)).length

def statsWrong (db : DB) (sid : Nat) : Nat :=
  ((sessionAnswers db sid).filter (fun a => !a.is_correct)).length

/-- Modelled from the spec: the scoring formula of §4.3
(`100 * correct / total`, `0` when `total = 0`); the body of the source's
`calculate_stats` is not present in the repository. -/
def scorePct (correct total : Nat) : Rat :=
  if total = 0 then 0 else (100 * (correct : Rat)) / (total : Rat)

/-- `finalize_session` from the architecture document:
`UPDATE quiz_sessions SET status = 'completed', ended_at = NOW(),
score = ..., total_questions = ..., correct_answers = ...,
wrong_answers = ... WHERE id = sid`, the counters recomputed from the
recorded answers.  No status check is performed. -/
def finalize_session (db : DB) (sid : Nat) (now : Int) : DB :=
  updateSession db sid (fun s =>
    { s with status := .completed,
             ended_at := some now,
             total_questions := statsTotal db sid,
             correct_answers := statsCorrect db sid,
             wrong_answers := statsWrong db sid,
             score := some (scorePct (statsCorrect db sid) (statsTotal db sid)) })

/-! ## Response payloads -/

structure QuestionPayload where
  qid : Nat
  text : String
  block_name : String
  options : List (Char × String)
  question_number : Nat
deriving DecidableEq

/-- Modelled from the spec: the question payload of §6
(`{id, text, block_name, options, question_number}`); the body of the
source's `format_question` is not present in the repository. -/
def format_question (db : DB) (q : Question) (num : Nat) : QuestionPayload :=
  { qid := q.qid
    text := q.text
    block_name := ((db.blocks.find? (fun b => b.bid == q.blockId)).map
      (fun b => b.name)).getD ""
    options := [('A', q.optionA), ('B', q.optionB), ('C', q.optionC), ('D', q.optionD)]
    question_number := num }

structure BlockPerformance where
  block_name : String
  correct : Nat
  total : Nat
  accuracy : Rat
deriving DecidableEq

structure QuizResults where
  total_questions : Nat
  correct_answers : Nat
  wrong_answers : Nat
  accuracy : Rat
  completion_time_seconds : Int
  blocks_performance : List BlockPerformance
deriving DecidableEq

/-- Modelled from the spec: the finalized-result computation of §4.3; the
per-block breakdown follows the `blocks_performance` query of the
architecture document (answers of the session joined to questions and
blocks, grouped by block). -/
def calculate_results (db : DB) (sid : Nat) : QuizResults :=
  { total_questions := statsTotal db sid
    correct_answers := statsCorrect db sid
    wrong_answers := statsWrong db sid
    accuracy := scorePct (statsCorrect db sid) (statsTotal db sid)
    completion_time_seconds :=
      match get_session db sid with
      | some s => (s.ended_at.getD s.started_at) - s.started_at
      | none => 0
    blocks_performance :=
      db.blocks.filterMap (fun b =>
        let bt := ((sessionAnswers db sid).filter
          (fun a => answerBlock db a == some b.bid)).length
        let bc := ((sessionAnswers db sid).filter
          (fun a => answerBlock db a == some b.bid && a.is_correct)).length
        if bt = 0 then none
        else some { block_name := b.name, correct := bc, total := bt,
                    accuracy := scorePct bc bt }) }

inductive EndReason where
  | timeout
  | all_questions_answered
deriving DecidableEq

/-- The discriminated response union of the `answer` endpoint:
`{type:"continue", ...}` or `{type:"end", reason, results}`. -/
inductive QuizResponse where
  | continueResp (time_remaining_seconds : Int) (questions_answered : Nat)
      (next_question : QuestionPayload)
  | endResp (reason : EndReason) (results : QuizResults)
deriving DecidableEq

/-- Whether a response is the `{type:"end", reason:"timeout"}` shape. -/
def isTimeoutEnd : QuizResponse → Bool
  | .endResp .timeout _ => true
  | _ => false

/-- Whether a response is the `{type:"continue"}` shape. -/
def isContinue : QuizResponse → Bool
  | .continueResp _ _ _ => true
  | _ => false

structure AnswerRequest where
  session_id : Nat
  question_id : Nat
  answer : Char
deriving DecidableEq

/-! ## The two endpoints -/

/-- The tail of the `answer` handler after the answer has been saved and
the counters updated: the timeout branch (the expiry comparison uses the
session row and timestamp captured at the start of the call, exactly as
the source computes `time_expired` before the writes), then next-question
selection, exhaustion, or continuation. -/
def answerStep2 (db : DB) (session : Session) (sid : Nat) (now : Int) (seed : Nat) :
    DB × QuizResponse :=
  if session.expires_at ≤ now then
    (finalize_session db sid now,
     .endResp .timeout (calculate_results (finalize_session db sid now) sid))
  else
    match get_next_question db session seed with
    | none =>
        (finalize_session db sid now,
         .endResp .all_questions_answered
           (calculate_results (finalize_session db sid now) sid))
    | some nq =>
        (db, .continueResp (session.expires_at - now) (count_answered_questions db sid)
          (format_question db nq (count_answered_questions db sid + 1)))

/-- The `answer` endpoint, translated from `submit_answer` of
`src/unnamed/part_004`: look the session up, snapshot the expiry
comparison, grade the answer against the question's correct option, save
it (the unique constraint may reject it), update the session counters, and
only then take the timeout / exhaustion / continuation branch.  An error
leaves the store untouched (single transaction). -/
def submit_answer (db : DB) (req : AnswerRequest) (now : Int) (seed : Nat) :
    Except QuizError (DB × QuizResponse) :=
  match get_session db req.session_id with
  | none => .error .sessionNotFound
  | some session =>
    match get_question db req.question_id with
    | none => .error .questionNotFound
    | some question =>
      match save_answer db req.session_id req.question_id req.answer
          (req.answer == question.correct_answer) with
      | .error e => .error e
      | .ok db1 =>
        .ok (answerStep2
          (update_session_stats db1 req.session_id
            (req.answer == question.correct_answer))
          session req.session_id now seed)

inductive StartError where
  | duplicateSession
  | noBlocksConfigured
  | noQuestionAvailable
deriving DecidableEq

/-- The candidate's in-progress session for this track, if any. -/
def get_active_session (db : DB) (candidateId trackId : Nat) : Option Session :=
  db.sessions.find? (fun s =>
    s.candidateId == candidateId && s.trackId == trackId &&
      s.status == SessionStatus.in_progress)

structure StartResponse where
  session_id : Nat
  expires_at : Int
  question : QuestionPayload
deriving DecidableEq

/-- The `start` endpoint, translated from `start_quiz` of the architecture
document: reject when an in-progress session for this candidate and track
already exists; otherwise create a session expiring 900 seconds from now
and draw the first question at random from the track's first configured
block. -/
def start_quiz (db : DB) (candidateId trackId : Nat) (now : Int) (newSid : Nat)
    (seed : Nat) : Except StartError (DB × StartResponse) :=
  match get_active_session db candidateId trackId with
  | some _ => .error .duplicateSession
  | none =>
    match get_track_quiz_blocks db trackId with
    | [] => .error .noBlocksConfigured
    | firstBlock :: _ =>
      match get_random_question_from_block db firstBlock.blockId [] seed with
      | none => .error .noQuestionAvailable
      | some q =>
        .ok ({ db with sessions := db.sessions ++
                [{ sid := newSid, candidateId := candidateId, trackId := trackId,
                   status := .in_progress, started_at := now, expires_at := now + 900,
                   ended_at := none, total_questions := 0, correct_answers := 0,
                   wrong_answers := 0, score := none }] },
             { session_id := newSid, expires_at := now + 900,
               question := format_question db q 1 })

/-! ## Conforming interaction traces

A conforming client answers only questions the engine issued.  The engine
issues questions in two ways: the `start` call draws the first question
from the track's first configured block, and every later question is what
`get_next_question` returned after the previous answer was recorded (the
handler computes it on the post-insert store, i.e. exactly the store the
next call runs on).  Both modes are subsumed by `Issuable`: the question
is active, not yet answered in the session, and belongs to a configured
block that is still below its required count.  Selector-issued questions
are always `Issuable`; the start-issued first question is `Issuable`
whenever every configured block requires at least one question (without
that condition `start` can issue from a block whose requirement is
already met — the first configured block with `questions_count = 0` —
and the capacity bound genuinely fails; see the C8 counterexample). -/

/-- A question the engine can hand to the client in the current store:
it belongs to a configured block whose answered count is still below its
required count, and is among that block's active questions not yet
answered in this session. -/
def Issuable (db : DB) (sid trackId : Nat) (q : Question) : Prop :=
  ∃ tb ∈ get_track_quiz_blocks db trackId,
    count_block_questions_in_session db sid tb.blockId < tb.questions_count ∧
    q ∈ activePool db tb.blockId (get_answered_question_ids db sid)

/-- Stores reachable for session `sid` on track `trackId` by conforming
answer calls — each submitting an `Issuable` question — from a store in
which the session has no recorded answers, the track's configured blocks
are pairwise distinct (the primary key of `track_quiz_blocks`), and
question identifiers are unique (the primary key of `quiz_questions`). -/
inductive ConformingReach (sid trackId : Nat) : DB → Prop where
  | init (db : DB) :
      (∀ a ∈ db.answers, a.sessionId ≠ sid) →
      ((get_track_quiz_blocks db trackId).map (fun tb => tb.blockId)).Nodup →
      (db.questions.map (fun q => q.qid)).Nodup →
      ConformingReach sid trackId db
  | step (db db2 : DB) (q : Question) (ans : Char)
      (now : Int) (seed : Nat) (resp : QuizResponse) :
      ConformingReach sid trackId db →
      Issuable db sid trackId q →
      submit_answer db ⟨sid, q.qid, ans⟩ now seed = .ok (db2, resp) →
      ConformingReach sid trackId db2

/-- The per-session selection invariant: no configured block has been
answered beyond its required count, and every recorded answer of the
session references a bank question belonging to a configured block. -/
def sessionBlocksInv (db : DB) (sid trackId : Nat) : Prop :=
  (∀ tb ∈ get_track_quiz_blocks db trackId,
    count_block_questions_in_session db sid tb.blockId ≤ tb.questions_count) ∧
  (∀ a ∈ db.answers, a.sessionId = sid →
    ∃ tb ∈ get_track_quiz_blocks db trackId, answerBlock db a = some tb.blockId)

/-! ## Concrete fixtures -/

/-- Two active questions of block 1, correct options `A` and `B`. -/
def exQ10 : Question := ⟨10, 1, "q10", "oa", "ob", "oc", "od", 'A', true⟩

def exQ11 : Question := ⟨11, 1, "q11", "oa", "ob", "oc", "od", 'B', true⟩

def exBlock : QuizBlock := ⟨1, "Algorithms", true⟩

/-- An in-progress session of candidate 5 on track 1, running from 0 to
900. -/
def exSessActive : Session := ⟨100, 5, 1, .in_progress, 0, 900, none, 0, 0, 0, none⟩

/-- Track 1 requires two questions of block 1; session 100 is in progress
and has answered nothing. -/
def exDbActive : DB :=
  ⟨[exBlock], [⟨1, 1, 2⟩], [exQ10, exQ11], [exSessActive], []⟩

/-- `exDbActive` with the answer to question 10 already recorded. -/
def exDbDup : DB :=
  ⟨[exBlock], [⟨1, 1, 2⟩], [exQ10, exQ11], [exSessActive], [⟨100, 10, 'A', true⟩]⟩

/-- Session 100 already completed (finalized at its expiry), with one
recorded answer. -/
def exSessDone : Session := ⟨100, 5, 1, .completed, 0, 900, some 900, 1, 1, 0, some 100⟩

def exDbDone : DB :=
  ⟨[exBlock], [⟨1, 1, 2⟩], [exQ10, exQ11], [exSessDone], [⟨100, 10, 'A', true⟩]⟩

/-- Track 1 requires only one question of block 1, but the bank holds two
active questions of that block; session 100 has answered nothing. -/
def exDbCap : DB :=
  ⟨[exBlock], [⟨1, 1, 1⟩], [exQ10, exQ11], [exSessActive], []⟩

/-- `exDbCap` after the required question has been answered (block 1 has
no remaining capacity) while the session row is still in progress. -/
def exDbExhausted : DB :=
  ⟨[exBlock], [⟨1, 1, 1⟩], [exQ10, exQ11], [exSessActive], [⟨100, 10, 'A', true⟩]⟩

/-- A second block with one active question, correct option `A`. -/
def exQ20 : Question := ⟨20, 2, "q20", "oa", "ob", "oc", "od", 'A', true⟩

def exBlock2 : QuizBlock := ⟨2, "Basics", true⟩

/-- Track 1 with a first configured block requiring zero questions and a
second block requiring one; no session yet.  `start` nevertheless issues
the first question from block 1. -/
def exDbZero : DB :=
  ⟨[exBlock, exBlock2], [⟨1, 1, 0⟩, ⟨1, 2, 1⟩], [exQ10, exQ20], [], []⟩

/-- Track 1 requiring two questions of block 1, with no session yet. -/
def exDbFresh : DB :=
  ⟨[exBlock], [⟨1, 1, 2⟩], [exQ10, exQ11], [], []⟩

/-- The next question carried by a continuation response, if any. -/
def continueNextQid : QuizResponse → Option Nat
  | .continueResp _ _ nq => some nq.qid
  | _ => none

/-- A placeholder result pair used to name the computed outcome of a
concrete call. -/
def dfltPair : DB × QuizResponse :=
  (exDbActive, .endResp .timeout (calculate_results exDbActive 100))

/-- The store/response produced by a concrete successful call. -/
def okResult (db : DB) (req : AnswerRequest) (now : Int) (seed : Nat) :
    DB × QuizResponse :=
  (submit_answer db req now seed).toOption.getD dfltPair

/-- A placeholder pair for naming the computed outcome of a concrete
`start` call. -/
def dfltStartPair : DB × StartResponse :=
  (exDbFresh, ⟨0, 0, format_question exDbFresh exQ10 1⟩)

/-- The store/response produced by a concrete successful `start` call. -/
def okStart (db : DB) (candidateId trackId : Nat) (now : Int) (newSid seed : Nat) :
    DB × StartResponse :=
  (start_quiz db candidateId trackId now newSid seed).toOption.getD dfltStartPair

/-! ## Theorems -/

/-! ### Store-manipulation lemmas -/

theorem find_map_update (l : List Session) (k : Nat) (u : Session → Session)
    (hu : ∀ x, (u x).sid = x.sid) (s : Session)
    (h : l.find? (fun x => x.sid == k) = some s) :
    (l.map (fun x => if x.sid == k then u x else x)).find? (fun x => x.sid == k)
      = some (u s) := by
  induction l with
  | nil => simp at h
  | cons a t ih =>
    cases ha : a.sid == k with
    | true =>
      simp only [List.find?, ha] at h
      injection h with h
      subst h
      simp [List.find?, List.map_cons, ha, hu]
    | false =>
      simp only [List.find?, ha] at h
      rw [List.map_cons, if_neg (by simp [ha] : ¬((a.sid == k) = true))]
      simp only [List.find?, ha]
      exact ih h

theorem get_session_updateSession (db : DB) (k : Nat) (u : Session → Session)
    (hu : ∀ x, (u x).sid = x.sid) (s : Session) (h : get_session db k = some s) :
    get_session (updateSession db k u) k = some (u s) :=
  find_map_update db.sessions k u hu s h

theorem get_session_sid (db : DB) (k : Nat) (s : Session)
    (h : get_session db k = some s) : s.sid = k := by
  have := List.find?_some h
  simpa using this

theorem get_session_update_stats (db : DB) (sid : Nat) (c : Bool)
    (s : Session) (h : get_session db sid = some s) :
    get_session (update_session_stats db sid c) sid = some
      { s with
        total_questions := s.total_questions + 1
        correct_answers := s.correct_answers + (if c then 1 else 0)
        wrong_answers := s.wrong_answers + (if c then 0 else 1) } := by
  unfold update_session_stats
  exact get_session_updateSession db sid
    (fun x =>
      { x with
        total_questions := x.total_questions + 1
        correct_answers := x.correct_answers + (if c then 1 else 0)
        wrong_answers := x.wrong_answers + (if c then 0 else 1) })
    (fun x => rfl) s h

theorem get_session_finalize (db : DB) (sid : Nat) (now : Int)
    (s : Session) (h : get_session db sid = some s) :
    get_session (finalize_session db sid now) sid = some
      { s with
        status := .completed
        ended_at := some now
        total_questions := statsTotal db sid
        correct_answers := statsCorrect db sid
        wrong_answers := statsWrong db sid
        score := some (scorePct (statsCorrect db sid) (statsTotal db sid)) } := by
  unfold finalize_session
  exact get_session_updateSession db sid
    (fun x =>
      { x with
        status := .completed
        ended_at := some now
        total_questions := statsTotal db sid
        correct_answers := statsCorrect db sid
        wrong_answers := statsWrong db sid
        score := some (scorePct (statsCorrect db sid) (statsTotal db sid)) })
    (fun x => rfl) s h

theorem save_answer_ok (db : DB) (sid qid : Nat) (ans : Char) (c : Bool) (db1 : DB)
    (h : save_answer db sid qid ans c = .ok db1) :
    db1 = { db with answers := db.answers ++ [⟨sid, qid, ans, c⟩] } ∧
    (db.answers.any (fun a => a.sessionId == sid && a.questionId == qid)) = false := by
  unfold save_answer at h
  split at h
  · exact Except.noConfusion h
  · next hcond =>
      injection h with h
      exact ⟨h.symm, Bool.eq_false_iff.mpr hcond⟩

/-- Inversion of a successful `answer` call: the session and the question
were found, the `(session, question)` pair was not yet answered, and the
outcome is the post-save continuation. -/
theorem submit_answer_ok_inv (db : DB) (req : AnswerRequest) (now : Int) (seed : Nat)
    (db2 : DB) (resp : QuizResponse)
    (hok : submit_answer db req now seed = .ok (db2, resp)) :
    ∃ s q, get_session db req.session_id = some s ∧
      get_question db req.question_id = some q ∧
      (db.answers.any (fun a => a.sessionId == req.session_id &&
        a.questionId == req.question_id)) = false ∧
      (db2, resp) = answerStep2
        (update_session_stats
          { db with answers := db.answers ++
              [⟨req.session_id, req.question_id, req.answer,
                req.answer == q.correct_answer⟩] }
          req.session_id (req.answer == q.correct_answer))
        s req.session_id now seed := by
  unfold submit_answer at hok
  split at hok
  · exact Except.noConfusion hok
  next s hs =>
    split at hok
    · exact Except.noConfusion hok
    next q hq =>
      split at hok
      next e hsv => exact Except.noConfusion hok
      next db1 hsv =>
        obtain ⟨hdb1, hany⟩ := save_answer_ok _ _ _ _ _ _ hsv
        injection hok with hok
        exact ⟨s, q, hs, hq, hany, by rw [← hok, hdb1]⟩

/-- Case analysis of the post-save continuation. -/
theorem answerStep2_eq (db : DB) (s : Session) (sid : Nat) (now : Int) (seed : Nat) :
    (s.expires_at ≤ now ∧
      answerStep2 db s sid now seed = (finalize_session db sid now,
        .endResp .timeout (calculate_results (finalize_session db sid now) sid))) ∨
    (¬(s.expires_at ≤ now) ∧ get_next_question db s seed = none ∧
      answerStep2 db s sid now seed = (finalize_session db sid now,
        .endResp .all_questions_answered
          (calculate_results (finalize_session db sid now) sid))) ∨
    (¬(s.expires_at ≤ now) ∧ ∃ nq, get_next_question db s seed = some nq ∧
      answerStep2 db s sid now seed = (db, .continueResp (s.expires_at - now)
        (count_answered_questions db sid)
        (format_question db nq (count_answered_questions db sid + 1)))) := by
  unfold answerStep2
  by_cases hexp : s.expires_at ≤ now
  · exact Or.inl ⟨hexp, by rw [if_pos hexp]⟩
  · rw [if_neg hexp]
    cases hn : get_next_question db s seed with
    | none => exact Or.inr (Or.inl ⟨hexp, rfl, rfl⟩)
    | some nq => exact Or.inr (Or.inr ⟨hexp, nq, rfl, rfl⟩)

/-- `answerStep2` mutates only the session rows. -/
theorem answerStep2_meta (db : DB) (s : Session) (sid : Nat) (now : Int) (seed : Nat) :
    (answerStep2 db s sid now seed).1.answers = db.answers ∧
    (answerStep2 db s sid now seed).1.questions = db.questions ∧
    (answerStep2 db s sid now seed).1.trackBlocks = db.trackBlocks ∧
    (answerStep2 db s sid now seed).1.blocks = db.blocks := by
  unfold answerStep2
  split
  · exact ⟨rfl, rfl, rfl, rfl⟩
  · split
    · exact ⟨rfl, rfl, rfl, rfl⟩
    · exact ⟨rfl, rfl, rfl, rfl⟩

/-- A successful `answer` call appends exactly the submitted answer row
and leaves the question bank and the block configuration unchanged. -/
theorem submit_answer_ok_effect (db : DB) (req : AnswerRequest) (now : Int) (seed : Nat)
    (db2 : DB) (resp : QuizResponse)
    (hok : submit_answer db req now seed = .ok (db2, resp)) :
    ∃ q, get_question db req.question_id = some q ∧
      db2.questions = db.questions ∧ db2.trackBlocks = db.trackBlocks ∧
      db2.blocks = db.blocks ∧
      db2.answers = db.answers ++
        [⟨req.session_id, req.question_id, req.answer,
          req.answer == q.correct_answer⟩] := by
  obtain ⟨s, q, hs, hq, hany, heq⟩ := submit_answer_ok_inv db req now seed db2 resp hok
  have h1 : db2 = (answerStep2
      (update_session_stats
        { db with answers := db.answers ++
            [⟨req.session_id, req.question_id, req.answer,
              req.answer == q.correct_answer⟩] }
        req.session_id (req.answer == q.correct_answer))
      s req.session_id now seed).1 := congrArg Prod.fst heq
  obtain ⟨ha, hqs, htb, hbl⟩ := answerStep2_meta
    (update_session_stats
      { db with answers := db.answers ++
          [⟨req.session_id, req.question_id, req.answer,
            req.answer == q.correct_answer⟩] }
      req.session_id (req.answer == q.correct_answer))
    s req.session_id now seed
  exact ⟨q, hq, by rw [h1]; exact hqs.trans rfl, by rw [h1]; exact htb.trans rfl,
    by rw [h1]; exact hbl.trans rfl, by rw [h1]; exact ha.trans rfl⟩

/-- C3: a second submission for a `(session, question)` pair that already
has a recorded answer is rejected by the unique constraint — the
transaction fails, so neither the answer row nor any counter change is
committed — and a successful call preserves the
at-most-one-row-per-pair invariant. -/
theorem c3_answer_uniqueness (db : DB) (req : AnswerRequest) (now : Int) (seed : Nat) :
    ((∃ a ∈ db.answers, a.sessionId = req.session_id ∧
        a.questionId = req.question_id) →
      ∀ r, submit_answer db req now seed ≠ .ok r) ∧
    (db.answers.Pairwise (fun a b =>
        ¬(a.sessionId = b.sessionId ∧ a.questionId = b.questionId)) →
      ∀ db2 resp, submit_answer db req now seed = .ok (db2, resp) →
      db2.answers.Pairwise (fun a b =>
        ¬(a.sessionId = b.sessionId ∧ a.questionId = b.questionId))) := by
  constructor
  · rintro ⟨a, hmem, h1, h2⟩ ⟨db2, resp⟩ hok
    obtain ⟨s, q, hs, hq, hany, heq⟩ := submit_answer_ok_inv db req now seed db2 resp hok
    have hda : db.answers.any (fun a => a.sessionId == req.session_id &&
        a.questionId == req.question_id) = true := by
      rw [List.any_eq_true]
      exact ⟨a, hmem, by simp [h1, h2]⟩
    rw [hany] at hda
    exact Bool.noConfusion hda
  · intro hpw db2 resp hok
    obtain ⟨s, q, hs, hq, hany, heq⟩ := submit_answer_ok_inv db req now seed db2 resp hok
    obtain ⟨q2, hq2, _, _, _, hans⟩ := submit_answer_ok_effect db req now seed db2 resp hok
    rw [hq] at hq2
    injection hq2 with hq2
    subst hq2
    have hne : ∀ a ∈ db.answers, ¬(a.sessionId = req.session_id ∧
        a.questionId = req.question_id) := by
      intro a hmem hcon
      have hda : db.answers.any (fun a => a.sessionId == req.session_id &&
          a.questionId == req.question_id) = true := by
        rw [List.any_eq_true]
        exact ⟨a, hmem, by simp [hcon.1, hcon.2]⟩
      rw [hany] at hda
      exact Bool.noConfusion hda
    rw [hans, List.pairwise_append]
    refine ⟨hpw, List.pairwise_singleton _ _, ?_⟩
    intro a ha b hb
    have hb2 : b = ⟨req.session_id, req.question_id, req.answer,
        req.answer == q.correct_answer⟩ := by simpa using hb
    subst hb2
    intro hcon
    exact hne a ha ⟨hcon.1, hcon.2⟩

/-- Witness for C3: resubmitting question 10 in session 100 is rejected;
a fresh submission preserves pair-uniqueness. -/
theorem c3_answer_uniqueness_witness :
    (submit_answer exDbDup ⟨100, 10, 'B'⟩ 10 0 ≠
      .ok (exDbDup, .endResp .timeout (calculate_results exDbDup 100))) ∧
    (okResult exDbActive ⟨100, 10, 'A'⟩ 10 0).1.answers.Pairwise (fun a b =>
      ¬(a.sessionId = b.sessionId ∧ a.questionId = b.questionId)) :=
  ⟨(c3_answer_uniqueness exDbDup ⟨100, 10, 'B'⟩ 10 0).1
      ⟨⟨100, 10, 'A', true⟩, by decide, rfl, rfl⟩
      (exDbDup, .endResp .timeout (calculate_results exDbDup 100)),
   (c3_answer_uniqueness exDbActive ⟨100, 10, 'A'⟩ 10 0).2 List.Pairwise.nil
      (okResult exDbActive ⟨100, 10, 'A'⟩ 10 0).1
      (okResult exDbActive ⟨100, 10, 'A'⟩ 10 0).2 rfl⟩

/-- C1: on an existing session whose expiry has passed at the start of the
call, a completed `answer` call always returns the
`{type:"end", reason:"timeout"}` termination and leaves the session
finalized (status completed, end = now), independently of whether the
submitted answer was correct. -/
theorem c1_timeout_termination (db : DB) (req : AnswerRequest) (now : Int) (seed : Nat)
    (s : Session) (db2 : DB) (resp : QuizResponse)
    (hs : get_session db req.session_id = some s)
    (hexp : s.expires_at ≤ now)
    (hok : submit_answer db req now seed = .ok (db2, resp)) :
    (∃ results, resp = .endResp .timeout results) ∧
    ∃ s2, get_session db2 req.session_id = some s2 ∧
      s2.status = .completed ∧ s2.ended_at = some now := by
  obtain ⟨s2, q, hs2, hq, hany, heq⟩ := submit_answer_ok_inv db req now seed db2 resp hok
  rw [hs] at hs2
  injection hs2 with hs2
  subst hs2
  rcases answerStep2_eq
      (update_session_stats
        { db with answers := db.answers ++
            [⟨req.session_id, req.question_id, req.answer,
              req.answer == q.correct_answer⟩] }
        req.session_id (req.answer == q.correct_answer))
      s req.session_id now seed with
    ⟨_, ha2⟩ | ⟨hne, _, _⟩ | ⟨hne, _⟩
  · rw [ha2] at heq
    injection heq with hdb2 hresp
    refine ⟨⟨_, hresp⟩, ?_⟩
    have hg1 : get_session
        { db with answers := db.answers ++
            [⟨req.session_id, req.question_id, req.answer,
              req.answer == q.correct_answer⟩] }
        req.session_id = some s := hs
    have hg2 := get_session_update_stats _ req.session_id
      (req.answer == q.correct_answer) _ hg1
    have hg3 := get_session_finalize _ req.session_id now _ hg2
    rw [hdb2]
    exact ⟨_, hg3, rfl, rfl⟩
  · exact absurd hexp hne
  · exact absurd hexp hne

/-- Witness for C1: a call at time 1000 on session 100 expiring at 900. -/
theorem c1_timeout_termination_witness :
    (∃ results, (okResult exDbActive ⟨100, 10, 'A'⟩ 1000 0).2
      = .endResp .timeout results) ∧
    ∃ s2, get_session (okResult exDbActive ⟨100, 10, 'A'⟩ 1000 0).1 100 = some s2 ∧
      s2.status = .completed ∧ s2.ended_at = some 1000 :=
  c1_timeout_termination exDbActive ⟨100, 10, 'A'⟩ 1000 0 exSessActive
    (okResult exDbActive ⟨100, 10, 'A'⟩ 1000 0).1
    (okResult exDbActive ⟨100, 10, 'A'⟩ 1000 0).2
    rfl (by decide) rfl

/-- C2 (evidence of the divergence): at the failing input — session 100
expired (now 1000 ≥ expiry 900), question 10 valid and not yet answered —
the cited `submit_answer` persists the answer and updates the counters on
the timeout path: after the call one answer row exists and the counters
read (1, 1, 0), although nothing was recorded before the call and the
response is the timeout termination. -/
theorem c2_timeout_path_persists_answer :
    (submit_answer exDbActive ⟨100, 10, 'A'⟩ 1000 0).toOption.map
        (fun r => (r.1.answers.length,
          (get_session r.1 100).map (fun s =>
            (s.total_questions, s.correct_answers, s.wrong_answers)),
          isTimeoutEnd r.2))
      = some (1, some (1, 1, 0), true) ∧
    exDbActive.answers.length = 0 :=
  ⟨by decide, rfl⟩

/-- C7 counterexample: two calls that differ only in the submitted
answer — one correct (`A`), one wrong (`B`) — produce identical
continuation responses, so the continue variant cannot carry the
submitted answer's correctness or the correct option. -/
theorem c7_continue_carries_no_correctness :
    (okResult exDbActive ⟨100, 10, 'A'⟩ 10 0).2
      = (okResult exDbActive ⟨100, 10, 'B'⟩ 10 0).2 ∧
    isContinue (okResult exDbActive ⟨100, 10, 'A'⟩ 10 0).2 = true ∧
    ('A' == exQ10.correct_answer) = true ∧
    ('B' == exQ10.correct_answer) = false :=
  ⟨rfl, rfl, rfl, rfl⟩

/-- C7 amended: a continuation response carries
`time_remaining_seconds = expiry - now` (positive, hence non-negative, and
integral in this model), the cumulative number of questions answered in
the session including the current call's answer, and a next-question
payload whose ordinal is that cumulative count plus one — i.e. the
just-answered question's ordinal plus one; the continue variant carries no
correctness fields. -/
theorem c7_continuation_fields (db : DB) (req : AnswerRequest) (now : Int) (seed : Nat)
    (s : Session) (db2 : DB) (tr : Int) (qa : Nat) (nq : QuestionPayload)
    (hs : get_session db req.session_id = some s)
    (hok : submit_answer db req now seed = .ok (db2, .continueResp tr qa nq)) :
    tr = s.expires_at - now ∧ 0 < tr ∧
    qa = count_answered_questions db2 req.session_id ∧
    qa = count_answered_questions db req.session_id + 1 ∧
    nq.question_number = qa + 1 := by
  obtain ⟨s2, q, hs2, hq, hany, heq⟩ :=
    submit_answer_ok_inv db req now seed db2 _ hok
  rw [hs] at hs2
  injection hs2 with hs2
  subst hs2
  rcases answerStep2_eq
      (update_session_stats
        { db with answers := db.answers ++
            [⟨req.session_id, req.question_id, req.answer,
              req.answer == q.correct_answer⟩] }
        req.session_id (req.answer == q.correct_answer))
      s req.session_id now seed with
    ⟨hexp, ha2⟩ | ⟨hne, hnone, ha2⟩ | ⟨hne, nq2, hsome, ha2⟩
  · rw [ha2] at heq
    injection heq with h1 h2
    exact absurd h2 (by simp)
  · rw [ha2] at heq
    injection heq with h1 h2
    exact absurd h2 (by simp)
  · rw [ha2] at heq
    injection heq with h1 h2
    injection h2 with ht hqa hnq
    have hcnt : count_answered_questions
        (update_session_stats
          { db with answers := db.answers ++
              [⟨req.session_id, req.question_id, req.answer,
                req.answer == q.correct_answer⟩] }
          req.session_id (req.answer == q.correct_answer))
        req.session_id = count_answered_questions db req.session_id + 1 := by
      show ((db.answers ++
          ([⟨req.session_id, req.question_id, req.answer,
            req.answer == q.correct_answer⟩] : List AnsweredQuestion)).filter
          (fun a => a.sessionId == req.session_id)).length
        = (db.answers.filter (fun a => a.sessionId == req.session_id)).length + 1
      rw [List.filter_append, List.length_append]
      simp [List.filter]
    refine ⟨ht, ?_, ?_, ?_, ?_⟩
    · rw [ht]
      exact Int.sub_pos.mpr (lt_of_not_le hne)
    · rw [h1]
      exact hqa
    · rw [hqa, hcnt]
    · rw [hnq, hqa]
      rfl

/-- Witness for C7's amended claim: the continuation produced by
answering question 10 at time 10 in session 100. -/
theorem c7_continuation_fields_witness :
    (890 : Int) = exSessActive.expires_at - 10 ∧ (0 : Int) < 890 ∧
    1 = count_answered_questions (okResult exDbActive ⟨100, 10, 'A'⟩ 10 0).1 100 ∧
    1 = count_answered_questions exDbActive 100 + 1 ∧
    (⟨11, "q11", "Algorithms",
      [('A', "oa"), ('B', "ob"), ('C', "oc"), ('D', "od")], 2⟩ :
        QuestionPayload).question_number = 1 + 1 :=
  c7_continuation_fields exDbActive ⟨100, 10, 'A'⟩ 10 0 exSessActive
    (okResult exDbActive ⟨100, 10, 'A'⟩ 10 0).1 890 1
    ⟨11, "q11", "Algorithms", [('A', "oa"), ('B', "ob"), ('C', "oc"), ('D', "od")], 2⟩
    rfl rfl

/-- C5 amended: finalization never double-counts — the counters are
recomputed from the recorded answers, so re-finalizing an
already-finalized session at the same instant is a no-op, even though the
source performs no status check. -/
theorem c5_finalize_idempotent (db : DB) (sid : Nat) (now : Int) :
    finalize_session (finalize_session db sid now) sid now
      = finalize_session db sid now := by
  unfold finalize_session updateSession
  simp only [List.map_map]
  congr 1
  apply List.map_congr_left
  intro x _
  simp only [Function.comp_apply]
  by_cases h : (x.sid == sid) = true
  · rw [if_pos h]
    split
    · rfl
    · rfl
  · rw [if_neg h, if_neg h]

/-- C5 counterexample: session 100 is already completed, yet an `answer`
call for the still-unanswered question 11 is neither rejected nor a
no-op: it is accepted, a second answer row appears, and the counters are
rewritten. -/
theorem c5_completed_session_not_rejected :
    (submit_answer exDbDone ⟨100, 11, 'B'⟩ 1000 0).toOption.map
        (fun r => (r.1.answers.length,
          (get_session r.1 100).map (fun s => s.total_questions)))
      = some (2, some 2) ∧
    exDbDone.answers.length = 1 ∧
    (get_session exDbDone 100).map (fun s => s.status == .completed) = some true :=
  ⟨by decide, rfl, rfl⟩

theorem sum_map_add (bs : List Nat) (f g : Nat → Nat) :
    (bs.map (fun b => f b + g b)).sum = (bs.map f).sum + (bs.map g).sum := by
  induction bs with
  | nil => rfl
  | cons b t ih => simp only [List.map_cons, List.sum_cons, ih]; omega

theorem sum_map_indicator_zero (b0 : Nat) :
    ∀ t : List Nat, b0 ∉ t →
      (t.map (fun b => if b0 = b then 1 else 0)).sum = 0 := by
  intro t
  induction t with
  | nil => intro _; rfl
  | cons b r ih =>
    intro hnmem
    simp only [List.map_cons, List.sum_cons]
    rw [if_neg (fun he => hnmem (by rw [he]; exact List.mem_cons_self b r)),
      ih (fun hr => hnmem (List.mem_cons_of_mem b hr))]

theorem sum_map_indicator_single (b0 : Nat) :
    ∀ bs : List Nat, bs.Nodup → b0 ∈ bs →
      (bs.map (fun b => if b0 = b then 1 else 0)).sum = 1 := by
  intro bs
  induction bs with
  | nil => intro _ h; exact absurd h (List.not_mem_nil b0)
  | cons b t ih =>
    intro hnd hmem
    simp only [List.map_cons, List.sum_cons]
    rcases List.mem_cons.mp hmem with rfl | hmem2
    · rw [if_pos rfl, sum_map_indicator_zero b0 t (List.nodup_cons.mp hnd).1]
    · have hne : b0 ≠ b := fun he => (List.nodup_cons.mp hnd).1 (by rw [← he]; exact hmem2)
      rw [if_neg hne, ih (List.nodup_cons.mp hnd).2 hmem2]

/-- Counting answers block by block: when every element maps into a
duplicate-free list of blocks, the list's length is the sum of the
per-block counts. -/
theorem length_eq_sum_block_counts (f : AnsweredQuestion → Option Nat) :
    ∀ (l : List AnsweredQuestion) (bs : List Nat), bs.Nodup →
      (∀ a ∈ l, ∃ b ∈ bs, f a = some b) →
      l.length = (bs.map (fun b =>
        (l.filter (fun a => f a == some b)).length)).sum := by
  intro l
  induction l with
  | nil => intro bs _ _; simp
  | cons a t ih =>
    intro bs hnd hall
    obtain ⟨b0, hb0, hfb0⟩ := hall a (List.mem_cons_self _ _)
    have ht := ih bs hnd (fun x hx => hall x (List.mem_cons_of_mem _ hx))
    have hmap : bs.map (fun b => ((a :: t).filter (fun x => f x == some b)).length)
        = bs.map (fun b => (t.filter (fun x => f x == some b)).length
            + (if b0 = b then 1 else 0)) := by
      apply List.map_congr_left
      intro b _
      by_cases hb : b0 = b
      · subst hb
        rw [List.filter_cons, if_pos (by rw [hfb0]; exact beq_self_eq_true _),
          List.length_cons, if_pos rfl]
      · have hcond : ¬((f a == some b) = true) := by
          rw [hfb0]
          simp [hb]
        rw [List.filter_cons, if_neg hcond, if_neg hb]
        omega
    rw [List.length_cons, hmap, sum_map_add, ← ht,
      sum_map_indicator_single b0 bs hnd hb0]

theorem find_qid_of_mem_nodup :
    ∀ (l : List Question) (q : Question), q ∈ l →
      (l.map (fun x => x.qid)).Nodup →
      l.find? (fun x => x.qid == q.qid) = some q := by
  intro l
  induction l with
  | nil => intro q h _; exact absurd h (List.not_mem_nil q)
  | cons a t ih =>
    intro q hmem hnd
    simp only [List.map_cons, List.nodup_cons] at hnd
    rcases List.mem_cons.mp hmem with rfl | hmem2
    · simp [List.find?]
    · have hne : (a.qid == q.qid) = false := by
        rw [beq_eq_false_iff_ne]
        intro he
        exact hnd.1 (by rw [he]; exact List.mem_map_of_mem (fun x => x.qid) hmem2)
      simp only [List.find?, hne]
      exact ih q hmem2 hnd.2

/-- With duplicate-free question identifiers (the primary key), looking a
bank question up by its identifier returns that question. -/
theorem get_question_of_mem_nodup (db : DB) (q : Question)
    (hmem : q ∈ db.questions) (hnd : (db.questions.map (fun x => x.qid)).Nodup) :
    get_question db q.qid = some q :=
  find_qid_of_mem_nodup db.questions q hmem hnd

theorem answerBlock_congr (dbA dbB : DB) (hq : dbA.questions = dbB.questions)
    (a : AnsweredQuestion) : answerBlock dbA a = answerBlock dbB a := by
  unfold answerBlock get_question
  rw [hq]

/-- Appending one answer row changes each per-block count by its
indicator. -/
theorem count_block_append (dbA dbB : DB) (sid b : Nat) (x : AnsweredQuestion)
    (hq : dbB.questions = dbA.questions)
    (ha : dbB.answers = dbA.answers ++ [x]) :
    count_block_questions_in_session dbB sid b =
      count_block_questions_in_session dbA sid b +
      (if (x.sessionId == sid && answerBlock dbA x == some b) = true
        then 1 else 0) := by
  unfold count_block_questions_in_session
  rw [ha]
  have hpred : ∀ a ∈ dbA.answers ++ [x],
      (a.sessionId == sid && answerBlock dbB a == some b)
        = (a.sessionId == sid && answerBlock dbA a == some b) := by
    intro a _
    rw [answerBlock_congr dbB dbA hq a]
  rw [List.filter_congr hpred, List.filter_append, List.length_append]
  congr 1
  by_cases hx : (x.sessionId == sid && answerBlock dbA x == some b) = true
  · rw [if_pos hx, List.filter_cons, if_pos hx]
    rfl
  · rw [if_neg hx, List.filter_cons, if_neg hx]
    rfl

/-- The random draw returns `none` exactly when the pool is empty. -/
theorem get_random_none (db : DB) (b : Nat) (ex : List Nat) (seed : Nat)
    (h : get_random_question_from_block db b ex seed = none) :
    activePool db b ex = [] := by
  unfold get_random_question_from_block at h
  by_contra hne
  have hpos : 0 < (activePool db b ex).length := List.length_pos.mpr hne
  rw [List.get?_eq_none] at h
  exact absurd h (not_le.mpr (Nat.mod_lt seed hpos))

/-- A drawn question belongs to the active pool it was drawn from. -/
theorem get_random_some_mem (db : DB) (b : Nat) (ex : List Nat) (seed : Nat)
    (q : Question) (h : get_random_question_from_block db b ex seed = some q) :
    q ∈ activePool db b ex := by
  unfold get_random_question_from_block at h
  exact List.get?_mem h

/-- Soundness of the block walk: a returned question comes from the first
configured block that both still needs questions and still has an
unanswered active question; every earlier block is either already
satisfied or exhausted. -/
theorem nextFromBlocks_some_inv (db : DB) (sid : Nat) (answered : List Nat)
    (seed : Nat) :
    ∀ (l : List TrackQuizBlock) (q : Question),
      nextFromBlocks db sid answered seed l = some q →
      ∃ pre tb post, l = pre ++ tb :: post ∧
        count_block_questions_in_session db sid tb.blockId < tb.questions_count ∧
        q ∈ activePool db tb.blockId answered ∧
        ∀ tb2 ∈ pre,
          tb2.questions_count ≤ count_block_questions_in_session db sid tb2.blockId ∨
          activePool db tb2.blockId answered = [] := by
  intro l
  induction l with
  | nil => intro q h; exact Option.noConfusion h
  | cons tb rest ih =>
    intro q h
    simp only [nextFromBlocks] at h
    split at h
    next hlt =>
      split at h
      next q2 hq2 =>
        injection h with h
        subst h
        exact ⟨[], tb, rest, rfl, hlt, get_random_some_mem _ _ _ _ _ hq2,
          fun tb2 h2 => absurd h2 (List.not_mem_nil tb2)⟩
      next hq2 =>
        obtain ⟨pre, tb3, post, hl, hcnt, hmem, hpre⟩ := ih q h
        refine ⟨tb :: pre, tb3, post, by rw [hl, List.cons_append], hcnt, hmem, ?_⟩
        intro tb2 h2
        rcases List.mem_cons.mp h2 with rfl | h3
        · exact Or.inr (get_random_none _ _ _ _ hq2)
        · exact hpre tb2 h3
    next hge =>
      obtain ⟨pre, tb3, post, hl, hcnt, hmem, hpre⟩ := ih q h
      refine ⟨tb :: pre, tb3, post, by rw [hl, List.cons_append], hcnt, hmem, ?_⟩
      intro tb2 h2
      rcases List.mem_cons.mp h2 with rfl | h3
      · exact Or.inl (le_of_not_lt hge)
      · exact hpre tb2 h3

/-- When every configured block has reached its required count, the walk
returns no question. -/
theorem nextFromBlocks_none_of_full (db : DB) (sid : Nat) (answered : List Nat)
    (seed : Nat) :
    ∀ (l : List TrackQuizBlock),
      (∀ tb ∈ l, tb.questions_count ≤
        count_block_questions_in_session db sid tb.blockId) →
      nextFromBlocks db sid answered seed l = none := by
  intro l
  induction l with
  | nil => intro _; rfl
  | cons tb rest ih =>
    intro hfull
    simp only [nextFromBlocks]
    rw [if_neg (not_lt.mpr (hfull tb (List.mem_cons_self _ _)))]
    exact ih (fun tb2 h2 => hfull tb2 (List.mem_cons_of_mem _ h2))

/-- One conforming step preserves the selection invariant (and the static
tables). -/
theorem conforming_step_inv (db db2 : DB) (sid tid : Nat) (q : Question)
    (ans : Char) (now : Int) (seed : Nat) (resp : QuizResponse)
    (hndq : (db.questions.map (fun x => x.qid)).Nodup)
    (hndb : ((get_track_quiz_blocks db tid).map (fun tb => tb.blockId)).Nodup)
    (hinv : sessionBlocksInv db sid tid)
    (hiss : Issuable db sid tid q)
    (hok : submit_answer db ⟨sid, q.qid, ans⟩ now seed = .ok (db2, resp)) :
    sessionBlocksInv db2 sid tid ∧ db2.questions = db.questions ∧
    db2.trackBlocks = db.trackBlocks := by
  obtain ⟨hcnt, hall⟩ := hinv
  obtain ⟨tb, hmemtb, hlt, hpool⟩ := hiss
  have hmemq : q ∈ db.questions := (List.mem_filter.mp hpool).1
  have hqb : q.blockId = tb.blockId := by
    have hqprops := (List.mem_filter.mp hpool).2
    simp only [Bool.and_eq_true, beq_iff_eq] at hqprops
    exact hqprops.1.1
  obtain ⟨q2, hq2, hques, htb, hbl, hans⟩ :=
    submit_answer_ok_effect db ⟨sid, q.qid, ans⟩ now seed db2 resp hok
  have hgq : get_question db q.qid = some q := get_question_of_mem_nodup db q hmemq hndq
  have hq2q : q2 = q := by
    have hq2a : get_question db q.qid = some q2 := hq2
    rw [hgq] at hq2a
    injection hq2a with h
    exact h.symm
  subst hq2q
  have hans2 : db2.answers = db.answers ++
      [⟨sid, q2.qid, ans, ans == q2.correct_answer⟩] := hans
  have hax : answerBlock db ⟨sid, q2.qid, ans, ans == q2.correct_answer⟩
      = some q2.blockId := by
    show (get_question db q2.qid).map (fun qq => qq.blockId) = some q2.blockId
    rw [hgq]
    rfl
  have hcfg : get_track_quiz_blocks db2 tid = get_track_quiz_blocks db tid := by
    unfold get_track_quiz_blocks
    rw [htb]
  have hcount3 : ∀ b, count_block_questions_in_session db2 sid b =
      count_block_questions_in_session db sid b +
      (if q2.blockId = b then 1 else 0) := by
    intro b
    rw [count_block_append db db2 sid b
      (⟨sid, q2.qid, ans, ans == q2.correct_answer⟩ : AnsweredQuestion) hques hans2]
    congr 1
    rw [hax]
    by_cases hb : q2.blockId = b
    · simp [hb]
    · simp [hb]
  refine ⟨⟨?_, ?_⟩, hques, htb⟩
  · intro tb2 hm2
    rw [hcfg] at hm2
    rw [hcount3 tb2.blockId]
    by_cases hb : q2.blockId = tb2.blockId
    · rw [if_pos hb]
      have htbeq : tb2 = tb :=
        List.inj_on_of_nodup_map hndb hm2 hmemtb (by rw [← hb]; exact hqb)
      subst htbeq
      omega
    · rw [if_neg hb]
      have := hcnt tb2 hm2
      omega
  · intro a ha hsida
    rw [hans2] at ha
    rcases List.mem_append.mp ha with hold | hnew
    · obtain ⟨tb3, hm3, hab3⟩ := hall a hold hsida
      exact ⟨tb3, by rw [hcfg]; exact hm3,
        by rw [answerBlock_congr db2 db hques a]; exact hab3⟩
    · have hxa : a = ⟨sid, q2.qid, ans, ans == q2.correct_answer⟩ := by
        simpa using hnew
      subst hxa
      refine ⟨tb, by rw [hcfg]; exact hmemtb, ?_⟩
      rw [answerBlock_congr db2 db hques _, hax, hqb]

/-- Along conforming interactions the invariant and the schema keys are
maintained. -/
theorem reach_preserves (sid tid : Nat) :
    ∀ db, ConformingReach sid tid db →
      ((get_track_quiz_blocks db tid).map (fun tb => tb.blockId)).Nodup ∧
      (db.questions.map (fun x => x.qid)).Nodup ∧
      sessionBlocksInv db sid tid := by
  intro db h
  induction h with
  | init db h1 h2 h3 =>
    refine ⟨h2, h3, ?_, ?_⟩
    · intro tb _
      have hz : count_block_questions_in_session db sid tb.blockId = 0 := by
        unfold count_block_questions_in_session
        rw [List.length_eq_zero, List.filter_eq_nil_iff]
        intro a ha hcon
        rw [Bool.and_eq_true] at hcon
        exact h1 a ha (by simpa using hcon.1)
      omega
    · intro a ha hsida
      exact absurd hsida (h1 a ha)
  | step db db2 q ans now seed resp hr hiss hok ih =>
    obtain ⟨hndb, hndq, hinv⟩ := ih
    obtain ⟨hinv2, hques, htb⟩ := conforming_step_inv db db2 sid tid q ans now
      seed resp hndq hndb hinv hiss hok
    have hcfg : get_track_quiz_blocks db2 tid = get_track_quiz_blocks db tid := by
      unfold get_track_quiz_blocks
      rw [htb]
    exact ⟨by rw [hcfg]; exact hndb, by rw [hques]; exact hndq, hinv2⟩

/-- C4: the next question comes from the first configured block whose
answered count is below its requirement and whose pool of active,
not-yet-answered questions is non-empty — every earlier block being
satisfied or exhausted — and only from that pool; when no block has
remaining capacity there is no next question. -/
theorem c4_block_order_selection (db : DB) (s : Session) (seed : Nat) :
    (∀ q, get_next_question db s seed = some q →
      ∃ pre tb post,
        get_track_quiz_blocks db s.trackId = pre ++ tb :: post ∧
        count_block_questions_in_session db s.sid tb.blockId < tb.questions_count ∧
        q ∈ activePool db tb.blockId (get_answered_question_ids db s.sid) ∧
        ∀ tb2 ∈ pre,
          tb2.questions_count ≤
            count_block_questions_in_session db s.sid tb2.blockId ∨
          activePool db tb2.blockId (get_answered_question_ids db s.sid) = []) ∧
    ((∀ tb ∈ get_track_quiz_blocks db s.trackId,
        tb.questions_count ≤ count_block_questions_in_session db s.sid tb.blockId) →
      get_next_question db s seed = none) := by
  constructor
  · intro q h
    exact nextFromBlocks_some_inv db s.sid _ seed _ q h
  · intro hfull
    exact nextFromBlocks_none_of_full db s.sid _ seed _ hfull

/-- Witness for C4: in `exDbActive` the selector returns question 10 from
block 1; in `exDbExhausted` every block is satisfied and it returns
nothing. -/
theorem c4_block_order_selection_witness :
    (∃ pre tb post,
      get_track_quiz_blocks exDbActive exSessActive.trackId = pre ++ tb :: post ∧
      count_block_questions_in_session exDbActive exSessActive.sid tb.blockId
        < tb.questions_count ∧
      exQ10 ∈ activePool exDbActive tb.blockId
        (get_answered_question_ids exDbActive exSessActive.sid) ∧
      ∀ tb2 ∈ pre,
        tb2.questions_count ≤
          count_block_questions_in_session exDbActive exSessActive.sid tb2.blockId ∨
        activePool exDbActive tb2.blockId
          (get_answered_question_ids exDbActive exSessActive.sid) = []) ∧
    get_next_question exDbExhausted exSessActive 0 = none :=
  ⟨(c4_block_order_selection exDbActive exSessActive 0).1 exQ10 rfl,
   (c4_block_order_selection exDbExhausted exSessActive 0).2 (by decide)⟩

/-- Every recorded answer is either correct or wrong, so the two filters
partition the session's answers. -/
theorem length_filter_correct_split (l : List AnsweredQuestion) :
    l.length = (l.filter (fun a => a.is_correct)).length +
      (l.filter (fun a => !a.is_correct)).length := by
  induction l with
  | nil => rfl
  | cons a t ih =>
    cases ha : a.is_correct with
    | true => simp [List.filter_cons, ha, ih]; omega
    | false => simp [List.filter_cons, ha]; omega

/-- C6: for a session finalized at `now`, the results report
`total = correct + wrong`, the documented score formula (0 when no
question was answered, else `100 * correct / total`),
`completion_time_seconds = end - start`, a per-block breakdown whose
accuracy is `100 * correct / total` over that block's answered questions,
and the finalized session row satisfies the same counter identity. -/
theorem c6_finalized_scoring (db : DB) (sid : Nat) (now : Int) (s : Session)
    (hs : get_session db sid = some s) :
    let r := calculate_results (finalize_session db sid now) sid
    r.total_questions = r.correct_answers + r.wrong_answers ∧
    (r.total_questions = 0 → r.accuracy = 0) ∧
    (r.total_questions ≠ 0 →
      r.accuracy = 100 * (r.correct_answers : Rat) / (r.total_questions : Rat)) ∧
    r.completion_time_seconds = now - s.started_at ∧
    (∀ bp ∈ r.blocks_performance, bp.total ≠ 0 ∧
      bp.accuracy = 100 * (bp.correct : Rat) / (bp.total : Rat)) ∧
    ∃ s2, get_session (finalize_session db sid now) sid = some s2 ∧
      s2.status = .completed ∧
      s2.total_questions = s2.correct_answers + s2.wrong_answers ∧
      s2.score = some r.accuracy := by
  intro r
  have hfin := get_session_finalize db sid now s hs
  refine ⟨?_, ?_, ?_, ?_, ?_, ?_⟩
  · exact length_filter_correct_split (sessionAnswers (finalize_session db sid now) sid)
  · intro h0
    have h1 : statsTotal (finalize_session db sid now) sid = 0 := h0
    show scorePct (statsCorrect (finalize_session db sid now) sid)
      (statsTotal (finalize_session db sid now) sid) = 0
    unfold scorePct
    rw [if_pos h1]
  · intro h0
    have h1 : statsTotal (finalize_session db sid now) sid ≠ 0 := h0
    show scorePct (statsCorrect (finalize_session db sid now) sid)
      (statsTotal (finalize_session db sid now) sid)
      = 100 * (r.correct_answers : Rat) / (r.total_questions : Rat)
    unfold scorePct
    rw [if_neg h1]
    rfl
  · show (match get_session (finalize_session db sid now) sid with
      | some s3 => (s3.ended_at.getD s3.started_at) - s3.started_at
      | none => 0) = now - s.started_at
    rw [hfin]
    rfl
  · intro bp hbp
    have hbp2 : bp ∈ (finalize_session db sid now).blocks.filterMap (fun b =>
        let bt := ((sessionAnswers (finalize_session db sid now) sid).filter
          (fun a => answerBlock (finalize_session db sid now) a == some b.bid)).length
        let bc := ((sessionAnswers (finalize_session db sid now) sid).filter
          (fun a => answerBlock (finalize_session db sid now) a == some b.bid
            && a.is_correct)).length
        if bt = 0 then none
        else some { block_name := b.name, correct := bc, total := bt,
                    accuracy := scorePct bc bt }) := hbp
    obtain ⟨b, hb, hfb⟩ := List.mem_filterMap.mp hbp2
    dsimp only at hfb
    split at hfb
    · exact Option.noConfusion hfb
    next hbt =>
      injection hfb with hfb
      subst hfb
      refine ⟨hbt, ?_⟩
      show scorePct _ _ = _
      unfold scorePct
      rw [if_neg hbt]
  · exact ⟨_, hfin, rfl, length_filter_correct_split (sessionAnswers db sid), rfl⟩

/-- Witness for C6: the finalized results of session 100 of `exDbDup`
(one correct answer) at time 40. -/
theorem c6_finalized_scoring_witness :
    let r := calculate_results (finalize_session exDbDup 100 40) 100
    r.total_questions = r.correct_answers + r.wrong_answers ∧
    (r.total_questions = 0 → r.accuracy = 0) ∧
    (r.total_questions ≠ 0 →
      r.accuracy = 100 * (r.correct_answers : Rat) / (r.total_questions : Rat)) ∧
    r.completion_time_seconds = 40 - exSessActive.started_at ∧
    (∀ bp ∈ r.blocks_performance, bp.total ≠ 0 ∧
      bp.accuracy = 100 * (bp.correct : Rat) / (bp.total : Rat)) ∧
    ∃ s2, get_session (finalize_session exDbDup 100 40) 100 = some s2 ∧
      s2.status = .completed ∧
      s2.total_questions = s2.correct_answers + s2.wrong_answers ∧
      s2.score = some r.accuracy :=
  c6_finalized_scoring exDbDup 100 40 exSessActive rfl

/-- Inversion of a successful `start` call: no active session existed, the
track's first configured block supplied the question, and the new session
was appended. -/
theorem start_quiz_ok_inv (db : DB) (c tid : Nat) (now : Int) (nsid seed : Nat)
    (db2 : DB) (resp : StartResponse)
    (hok : start_quiz db c tid now nsid seed = .ok (db2, resp)) :
    ∃ fb rest q, get_track_quiz_blocks db tid = fb :: rest ∧
      get_random_question_from_block db fb.blockId [] seed = some q ∧
      db2 = { db with sessions := db.sessions ++
        [{ sid := nsid, candidateId := c, trackId := tid, status := .in_progress,
           started_at := now, expires_at := now + 900, ended_at := none,
           total_questions := 0, correct_answers := 0, wrong_answers := 0,
           score := none }] } ∧
      resp = ⟨nsid, now + 900, format_question db q 1⟩ := by
  unfold start_quiz at hok
  split at hok
  · exact Except.noConfusion hok
  split at hok
  · exact Except.noConfusion hok
  next fb rest hcfg =>
    split at hok
    · exact Except.noConfusion hok
    next q hq =>
      injection hok with hok
      injection hok with h1 h2
      exact ⟨fb, rest, q, hcfg, hq, h1.symm, h2.symm⟩

/-- C8 counterexample.  First, the code never validates that a submitted
question was issued: on a track requiring one question, submitting the
never-issued question 11 after finishing the quiz is recorded, leaving
two answers against a configured total of one.  Second, the bound fails
even for a fully conforming client when the first configured block
requires zero questions: on `exDbZero` the `start` call itself issues
question 10 from the zero-requirement block, the continuation then issues
question 20, and answering exactly the two engine-issued questions leaves
two answers against a configured total of one. -/
theorem c8_capacity_exceeded_counterexample :
    (((submit_answer exDbCap ⟨100, 10, 'A'⟩ 10 0).toOption.bind (fun r =>
      (submit_answer r.1 ⟨100, 11, 'A'⟩ 20 0).toOption)).map
        (fun r => count_answered_questions r.1 100) = some 2 ∧
     ((get_track_quiz_blocks exDbCap 1).map (fun tb => tb.questions_count)).sum = 1) ∧
    ((start_quiz exDbZero 5 1 0 100 0).toOption.map
        (fun r => r.2.question.qid) = some 10 ∧
     ((start_quiz exDbZero 5 1 0 100 0).toOption.bind (fun r =>
        (submit_answer r.1 ⟨100, 10, 'A'⟩ 10 0).toOption)).map
        (fun r => continueNextQid r.2) = some (some 20) ∧
     (((start_quiz exDbZero 5 1 0 100 0).toOption.bind (fun r =>
        (submit_answer r.1 ⟨100, 10, 'A'⟩ 10 0).toOption)).bind (fun r =>
        (submit_answer r.1 ⟨100, 20, 'A'⟩ 20 0).toOption)).map
        (fun r => count_answered_questions r.1 100) = some 2 ∧
     ((get_track_quiz_blocks exDbZero 1).map (fun tb => tb.questions_count)).sum = 1) :=
  ⟨⟨by decide, rfl⟩, by decide, by decide, by decide, rfl⟩

/-- C8 amended: along conforming interactions — each submitted answer is
for an `Issuable` question — the session's answered count never exceeds
the sum of the configured required counts.  Every question the engine
issues by the next-question selector is `Issuable`; the question the
`start` call issues is `Issuable` provided every configured block
requires at least one question (so under that positivity condition the
bound covers every conforming client; without it `start` can over-issue,
see the counterexample).  And whenever a successful non-timeout `answer`
call runs with every block already at its required count, it finalizes
the session with reason `all_questions_answered`. -/
theorem c8_capacity_bound_and_exhaustion (sid tid : Nat) :
    (∀ db, ConformingReach sid tid db →
      count_answered_questions db sid ≤
        ((get_track_quiz_blocks db tid).map (fun tb => tb.questions_count)).sum) ∧
    (∀ db s seed q, get_session db sid = some s → s.trackId = tid →
      get_next_question db s seed = some q → Issuable db sid tid q) ∧
    (∀ db c now seed db2 resp,
      start_quiz db c tid now sid seed = .ok (db2, resp) →
      (∀ a ∈ db.answers, a.sessionId ≠ sid) →
      ((get_track_quiz_blocks db tid).map (fun tb => tb.blockId)).Nodup →
      (db.questions.map (fun x => x.qid)).Nodup →
      (∀ tb ∈ get_track_quiz_blocks db tid, 1 ≤ tb.questions_count) →
      ConformingReach sid tid db2 ∧
      ∃ q, resp.question = format_question db q 1 ∧ Issuable db2 sid tid q) ∧
    (∀ db req now seed s db2 resp,
      get_session db req.session_id = some s →
      submit_answer db req now seed = .ok (db2, resp) →
      ¬(s.expires_at ≤ now) →
      (∀ tb ∈ get_track_quiz_blocks db s.trackId,
        tb.questions_count ≤ count_block_questions_in_session db s.sid tb.blockId) →
      (∃ results, resp = .endResp .all_questions_answered results) ∧
      ∃ s2, get_session db2 req.session_id = some s2 ∧
        s2.status = .completed ∧ s2.ended_at = some now) := by
  refine ⟨?_, ?_, ?_, ?_⟩
  · intro db hr
    have hprop := reach_preserves sid tid db hr
    have hndb := hprop.1
    have hcnts := hprop.2.2.1
    have hall := hprop.2.2.2
    have hkey := length_eq_sum_block_counts (answerBlock db) (sessionAnswers db sid)
      ((get_track_quiz_blocks db tid).map (fun tb => tb.blockId)) hndb ?side
    case side =>
      intro a ha
      have hmem : a ∈ db.answers ∧ (a.sessionId == sid) = true := List.mem_filter.mp ha
      obtain ⟨tb, hm, hab⟩ := hall a hmem.1 (by simpa using hmem.2)
      exact ⟨tb.blockId, List.mem_map_of_mem _ hm, hab⟩
    show (sessionAnswers db sid).length ≤ _
    rw [hkey, List.map_map]
    apply List.sum_le_sum
    intro tb hmtb
    simp only [Function.comp_apply]
    have hc : ((sessionAnswers db sid).filter
        (fun a => answerBlock db a == some tb.blockId)).length
        = count_block_questions_in_session db sid tb.blockId := by
      unfold count_block_questions_in_session sessionAnswers
      rw [List.filter_filter]
      apply congrArg
      apply List.filter_congr
      intro a _
      rw [Bool.and_comm]
    rw [hc]
    exact hcnts tb hmtb
  · intro db s seed q hs hst hnq
    have hssid : s.sid = sid := get_session_sid db sid s hs
    unfold get_next_question at hnq
    obtain ⟨pre, tb, post, hsplit, hlt, hpool, hpre⟩ :=
      nextFromBlocks_some_inv db s.sid _ seed _ q hnq
    rw [hst] at hsplit
    rw [hssid] at hlt hpool
    exact ⟨tb,
      by rw [hsplit]; exact List.mem_append.mpr (Or.inr (List.mem_cons_self _ _)),
      hlt, hpool⟩
  · intro db c now seed db2 resp hok hfresh hndb hndq hpos
    obtain ⟨fb, rest, q, hcfg, hq, hdb2, hresp⟩ :=
      start_quiz_ok_inv db c tid now sid seed db2 resp hok
    have hqmem : q ∈ activePool db fb.blockId [] :=
      get_random_some_mem db fb.blockId [] seed q hq
    constructor
    · refine ConformingReach.init db2 ?_ ?_ ?_
      · intro a ha
        rw [hdb2] at ha
        exact hfresh a ha
      · rw [hdb2]
        exact hndb
      · rw [hdb2]
        exact hndq
    · refine ⟨q, by rw [hresp], fb, ?_, ?_, ?_⟩
      · rw [hdb2]
        show fb ∈ get_track_quiz_blocks db tid
        rw [hcfg]
        exact List.mem_cons_self _ _
      · have hz : count_block_questions_in_session db2 sid fb.blockId = 0 := by
          rw [hdb2]
          show count_block_questions_in_session db sid fb.blockId = 0
          unfold count_block_questions_in_session
          rw [List.length_eq_zero, List.filter_eq_nil_iff]
          intro a ha hcon
          rw [Bool.and_eq_true] at hcon
          exact hfresh a ha (by simpa using hcon.1)
        rw [hz]
        exact lt_of_lt_of_le Nat.zero_lt_one
          (hpos fb (by rw [hcfg]; exact List.mem_cons_self _ _))
      · have hids : get_answered_question_ids db2 sid = [] := by
          rw [hdb2]
          show get_answered_question_ids db sid = []
          have hnil : db.answers.filter (fun a => a.sessionId == sid) = [] := by
            rw [List.filter_eq_nil_iff]
            intro a ha hcon
            exact hfresh a ha (by simpa using hcon)
          show (db.answers.filter (fun a => a.sessionId == sid)).map
            (fun a => a.questionId) = []
          rw [hnil]
          rfl
        rw [hids, hdb2]
        show q ∈ activePool db fb.blockId []
        exact hqmem
  · intro db req now seed s db2 resp hs hok hne hfull
    obtain ⟨s2, q, hs2, hq, hany, heq⟩ := submit_answer_ok_inv db req now seed db2 resp hok
    rw [hs] at hs2
    injection hs2 with hs2
    subst hs2
    have hssid : s.sid = req.session_id := get_session_sid db req.session_id s hs
    rcases answerStep2_eq
        (update_session_stats
          { db with answers := db.answers ++
              [⟨req.session_id, req.question_id, req.answer,
                req.answer == q.correct_answer⟩] }
          req.session_id (req.answer == q.correct_answer))
        s req.session_id now seed with
      ⟨hexp, _⟩ | ⟨_, _, ha2⟩ | ⟨_, nq2, hsome, _⟩
    · exact absurd hexp hne
    · rw [ha2] at heq
      injection heq with hdb2 hresp
      refine ⟨⟨_, hresp⟩, ?_⟩
      have hg1 : get_session
          { db with answers := db.answers ++
              [⟨req.session_id, req.question_id, req.answer,
                req.answer == q.correct_answer⟩] }
          req.session_id = some s := hs
      have hg2 := get_session_update_stats _ req.session_id
        (req.answer == q.correct_answer) _ hg1
      have hg3 := get_session_finalize _ req.session_id now _ hg2
      rw [hdb2]
      exact ⟨_, hg3, rfl, rfl⟩
    · exfalso
      have hnone : get_next_question
          (update_session_stats
            { db with answers := db.answers ++
                [⟨req.session_id, req.question_id, req.answer,
                  req.answer == q.correct_answer⟩] }
            req.session_id (req.answer == q.correct_answer))
          s seed = none := by
        unfold get_next_question
        apply nextFromBlocks_none_of_full
        intro tb hmtb
        have hmtb2 : tb ∈ get_track_quiz_blocks db s.trackId := hmtb
        have h1 := hfull tb hmtb2
        have h2 := count_block_append db
          (update_session_stats
            { db with answers := db.answers ++
                [⟨req.session_id, req.question_id, req.answer,
                  req.answer == q.correct_answer⟩] }
            req.session_id (req.answer == q.correct_answer))
          s.sid tb.blockId
          (⟨req.session_id, req.question_id, req.answer,
            req.answer == q.correct_answer⟩ : AnsweredQuestion) rfl rfl
        rw [h2]
        split
        · omega
        · omega
      rw [hnone] at hsome
      exact Option.noConfusion hsome

/-- Witness for C8's amended claim: the conforming bound at the initial
store `exDbCap`; a selector-issued question is `Issuable` in
`exDbActive`; a `start` call on the fresh store `exDbFresh` (every block
requiring at least one question) lands in a conforming state with an
`Issuable` first question; and the exhaustion call on `exDbExhausted`
finalizes with `all_questions_answered`. -/
theorem c8_capacity_bound_and_exhaustion_witness :
    count_answered_questions exDbCap 100 ≤
      ((get_track_quiz_blocks exDbCap 1).map (fun tb => tb.questions_count)).sum ∧
    Issuable exDbActive 100 1 exQ10 ∧
    (ConformingReach 100 1 (okStart exDbFresh 5 1 0 100 0).1 ∧
      ∃ q, (okStart exDbFresh 5 1 0 100 0).2.question = format_question exDbFresh q 1 ∧
        Issuable (okStart exDbFresh 5 1 0 100 0).1 100 1 q) ∧
    (∃ results, (okResult exDbExhausted ⟨100, 11, 'C'⟩ 20 0).2
      = .endResp .all_questions_answered results) ∧
    ∃ s2, get_session (okResult exDbExhausted ⟨100, 11, 'C'⟩ 20 0).1 100 = some s2 ∧
      s2.status = .completed ∧ s2.ended_at = some 20 := by
  refine ⟨?_, ?_, ?_, ?_⟩
  · exact (c8_capacity_bound_and_exhaustion 100 1).1 exDbCap
      (ConformingReach.init exDbCap (by decide) (by decide) (by decide))
  · exact (c8_capacity_bound_and_exhaustion 100 1).2.1 exDbActive exSessActive 0 exQ10
      rfl rfl rfl
  · exact (c8_capacity_bound_and_exhaustion 100 1).2.2.1 exDbFresh 5 0 0
      (okStart exDbFresh 5 1 0 100 0).1 (okStart exDbFresh 5 1 0 100 0).2
      rfl (by decide) (by decide) (by decide) (by decide)
  · exact (c8_capacity_bound_and_exhaustion 100 1).2.2.2 exDbExhausted ⟨100, 11, 'C'⟩ 20 0
      exSessActive (okResult exDbExhausted ⟨100, 11, 'C'⟩ 20 0).1
      (okResult exDbExhausted ⟨100, 11, 'C'⟩ 20 0).2 rfl rfl (by decide) (by decide)

/-- C9: a `start` call while the candidate already has an in-progress
session for this track is rejected with the duplicate-session conflict
error; the call failing, no session is created. -/
theorem c9_duplicate_start_rejected (db : DB) (candidateId trackId : Nat)
    (now : Int) (newSid seed : Nat)
    (h : ∃ s ∈ db.sessions, s.candidateId = candidateId ∧ s.trackId = trackId ∧
      s.status = .in_progress) :
    start_quiz db candidateId trackId now newSid seed = .error .duplicateSession := by
  obtain ⟨s, hmem, hc, ht, hst⟩ := h
  have hsome : (get_active_session db candidateId trackId).isSome := by
    unfold get_active_session
    rw [List.find?_isSome]
    exact ⟨s, hmem, by simp [hc, ht, hst]⟩
  unfold start_quiz
  cases hga : get_active_session db candidateId trackId with
  | none => rw [hga] at hsome; exact absurd hsome (by simp)
  | some w => rfl

/-- Witness for C9: starting a second session for candidate 5 on track 1
while session 100 is in progress. -/
theorem c9_duplicate_start_rejected_witness :
    start_quiz exDbActive 5 1 50 200 0 = .error .duplicateSession :=
  c9_duplicate_start_rejected exDbActive 5 1 50 200 0
    ⟨exSessActive, by decide, rfl, rfl, rfl⟩

/-- C10: on an OK response whose body parses as a JSON object, `getTasks`
returns the `tasks` field when it is an array and the empty list when it
is missing or not an array; and every thrown `ApiError` is caused by a
network failure, a non-OK status, an unparsable body, or a body that is
not a JSON object. -/
theorem c10_getTasks_contract (status : Nat) (fields : List (String × Json)) :
    (∀ l, jsonField fields "tasks" = some (Json.arr l) →
      getTasks (.httpResponse true status (some (.obj fields))) = .ok l) ∧
    ((∀ l, jsonField fields "tasks" ≠ some (Json.arr l)) →
      getTasks (.httpResponse true status (some (.obj fields))) = .ok []) ∧
    (∀ o e, getTasks o = .error e →
      o = .networkFailure ∨
      (∃ st b, o = .httpResponse false st b) ∨
      (∃ st, o = .httpResponse true st none) ∨
      (∃ st j, o = .httpResponse true st (some j) ∧ j.isObject = false)) := by
  refine ⟨?_, ?_, ?_⟩
  · intro l hl
    simp [getTasks, Json.truthy, Json.typeofIsObject, hl]
  · intro hl
    cases hf : jsonField fields "tasks" with
    | none => simp [getTasks, Json.truthy, Json.typeofIsObject, hf]
    | some j =>
      cases j with
      | arr l => exact absurd hf (hl l)
      | null => simp [getTasks, Json.truthy, Json.typeofIsObject, hf]
      | bool b => simp [getTasks, Json.truthy, Json.typeofIsObject, hf]
      | num n => simp [getTasks, Json.truthy, Json.typeofIsObject, hf]
      | str s => simp [getTasks, Json.truthy, Json.typeofIsObject, hf]
      | obj f2 => simp [getTasks, Json.truthy, Json.typeofIsObject, hf]
  · intro o e h
    cases o with
    | networkFailure => exact Or.inl rfl
    | httpResponse ok st body =>
      cases ok with
      | false => exact Or.inr (Or.inl ⟨st, body, rfl⟩)
      | true =>
        cases body with
        | none => exact Or.inr (Or.inr (Or.inl ⟨st, rfl⟩))
        | some j =>
          refine Or.inr (Or.inr (Or.inr ⟨st, j, rfl, ?_⟩))
          cases j with
          | null => rfl
          | bool b => rfl
          | num n => rfl
          | str s => rfl
          | arr l => simp [getTasks, Json.truthy, Json.typeofIsObject] at h
          | obj f2 =>
            exfalso
            simp only [getTasks, Json.truthy, Json.typeofIsObject, Bool.not_true,
              Bool.or_self, Bool.false_or] at h
            cases hf : jsonField f2 "tasks" with
            | none => rw [hf] at h; exact Except.noConfusion h
            | some j2 => rw [hf] at h; cases j2 <;> exact Except.noConfusion h

/-- Witness for C10 at concrete inputs. -/
theorem c10_getTasks_contract_witness :
    getTasks (.httpResponse true 200 (some (.obj [("tasks", Json.arr [Json.num 7])])))
      = .ok [Json.num 7] ∧
    getTasks (.httpResponse true 200 (some (.obj [("other", Json.null)]))) = .ok [] ∧
    (FetchOutcome.networkFailure = FetchOutcome.networkFailure ∨
      (∃ st b, FetchOutcome.networkFailure = .httpResponse false st b) ∨
      (∃ st, FetchOutcome.networkFailure = .httpResponse true st none) ∨
      (∃ st j, FetchOutcome.networkFailure = .httpResponse true st (some j) ∧
        j.isObject = false)) := by
  refine ⟨(c10_getTasks_contract 200 [("tasks", Json.arr [Json.num 7])]).1 [Json.num 7] rfl,
    (c10_getTasks_contract 200 [("other", Json.null)]).2.1 ?_,
    (c10_getTasks_contract 200 []).2.2 .networkFailure
      ⟨"Не удалось подключиться к серверу. Проверьте соединение или попробуйте позже.",
        none, true⟩ rfl⟩
  intro l hl
  simp [jsonField] at hl

end X5
